import Mathlib

/-!
Verification of the Substrate vesting pallet (`frame/vesting/src/lib.rs`).

The pallet keeps, per account, a bounded list of linear vesting schedules
(`VestingInfo`) together with a balance lock whose amount must mirror the
total still-locked funds of the stored schedules.  Machine integers
(`BalanceOf<T>` and `T::BlockNumber`) are modelled as `Nat` together with an
explicit maximum representable value `Config.bmax`; the pallet's saturating
arithmetic becomes `min (.) bmax` and truncated `Nat` subtraction.  Following
the pallet's test mock, the `BlockNumberToBalance` conversion is the identity,
so block numbers and balances share the single bound `bmax`.

The schedule-level helpers (`locked_at`, `ending_block`, `validate`,
`correct`, `VestingInfo::new`) live in `vesting_info.rs`, which is not part
of the available sources; those definitions are modelled from the design
specification (its `ScheduleMath` section) and are marked as such.  All
pallet-level logic (`merge_vesting_info`, `report_schedule_updates`,
`write_lock`, `write_vesting`, `do_vest`, `do_vested_transfer`,
`merge_schedules`, `add_vesting_schedule`, `remove_vesting_schedule`,
`vesting_balance`) is translated directly from `lib.rs`.
-/

namespace VestingPallet

/-- Runtime configuration: the maximum representable balance / block number
(`Balance::max_value()`), `MaxVestingSchedules`, and `MinVestedTransfer`. -/
structure Config where
  bmax : Nat
  maxVestingSchedules : Nat
  minVestedTransfer : Nat
deriving DecidableEq

/-- Saturating addition, capped at the maximum representable value `B`. -/
def satAdd (B a b : Nat) : Nat := min (a + b) B

/-- Saturating multiplication, capped at the maximum representable value `B`. -/
def satMul (B a b : Nat) : Nat := min (a * b) B

/-- A single vesting schedule: `VestingInfo { locked, per_block, starting_block }`
from `vesting_info.rs`. -/
structure VestingInfo where
  locked : Nat
  per_block : Nat
  starting_block : Nat
deriving DecidableEq

/-- Modelled from the spec: `locked_at(schedule, time)` of `ScheduleMath`
(the `VestingInfo::locked_at` method of the missing `vesting_info.rs`).
If `time <= starting_block` the whole `locked` amount remains; otherwise
`per_block * elapsed` is unlocked with a saturating multiply and the result
is `locked` saturating-subtracted by that amount. -/
def VestingInfo.locked_at (C : Config) (s : VestingInfo) (time : Nat) : Nat :=
  if time ≤ s.starting_block then s.locked
  else s.locked - satMul C.bmax s.per_block (time - s.starting_block)

/-- Modelled from the spec: `ending_time(schedule)` of `ScheduleMath`
(the `VestingInfo::ending_block` method of the missing `vesting_info.rs`).
A stored `per_block` of zero is treated as one; the duration is the
round-up division `(locked + per_block - 1) / per_block` with a saturating
addition, and the result is `starting_block + duration`.  `none` models the
`ArithmeticOverflow` failure when that sum exceeds the maximum representable
block number. -/
def VestingInfo.ending_block (C : Config) (s : VestingInfo) : Option Nat :=
  let epb := max s.per_block 1
  let duration := satAdd C.bmax s.locked (epb - 1) / epb
  if s.starting_block + duration ≤ C.bmax then some (s.starting_block + duration)
  else none

/-- Errors of the pallet (`Error<T>` in `lib.rs`). -/
inductive PalletError
  | NotVesting
  | AtMaxVestingSchedules
  | AmountLow
  | ScheduleIndexOutOfBounds
  | InvalidScheduleParams
  | InfiniteSchedule
deriving DecidableEq

/-- Dispatch-level errors: a pallet error, the arithmetic-overflow error
raised by `ending_block`, or the external currency transfer failing for
insufficient funds. -/
inductive DispatchError
  | pallet (e : PalletError)
  | arithmeticOverflow
  | insufficientBalance
deriving DecidableEq

/-- Modelled from the spec: `validate(schedule)` of `ScheduleMath` (the
missing `vesting_info.rs`): fails with `InvalidScheduleParams` when `locked`
or `per_block` is zero. -/
def VestingInfo.validate (s : VestingInfo) : Except PalletError Unit :=
  if s.locked = 0 ∨ s.per_block = 0 then .error .InvalidScheduleParams else .ok ()

/-- Modelled from the spec: `correct(schedule)` of `ScheduleMath` (the
missing `vesting_info.rs`): clamps `per_block` to at most `locked`. -/
def VestingInfo.correct (s : VestingInfo) : VestingInfo :=
  { s with per_block := min s.per_block s.locked }

/-- Translation of `merge_vesting_info` (`lib.rs`): combine two schedules into at most one
replacement schedule, given the current block `now`.  The final construction
goes through `correct`, following the spec's `MergeAlgorithm` section (the
constructor itself lives in the missing `vesting_info.rs`). -/
def merge_vesting_info (C : Config) (now : Nat) (schedule1 schedule2 : VestingInfo) :
    Except DispatchError (Option VestingInfo) :=
  match schedule1.ending_block C, schedule2.ending_block C with
  | none, _ => .error .arithmeticOverflow
  | some _, none => .error .arithmeticOverflow
  | some e1, some e2 =>
    if e1 ≤ now ∧ e2 ≤ now then .ok none
    else if e1 ≤ now then .ok (some schedule2)
    else if e2 ≤ now then .ok (some schedule1)
    else
      let locked := satAdd C.bmax (schedule1.locked_at C now) (schedule2.locked_at C now)
      if locked = 0 then .ok none
      else
        let ending_block := max e1 e2
        let starting_block := max (max now schedule1.starting_block) schedule2.starting_block
        let duration := ending_block - starting_block
        let per_block :=
          if locked < duration then 1
          else if duration = 0 then locked
          else locked / duration
        .ok (some (VestingInfo.correct ⟨locked, per_block, starting_block⟩))

/-- Actions to take on a user's `Vesting` storage entry (`VestingAction` in
`lib.rs`). -/
inductive VestingAction
  | passive
  | remove (index1 : Nat)
  | merge (index1 index2 : Nat)
deriving DecidableEq

/-- Whether the filter (`VestingAction::should_remove`) says the schedule at
`index` should be removed. -/
def VestingAction.should_remove : VestingAction → Nat → Bool
  | .passive, _ => false
  | .remove index1, index => index1 == index
  | .merge index1 index2, index => index1 == index || index2 == index

/-- On-chain state touched by the pallet: the `Vesting` storage map, the
balance locks held under the `VESTING_ID` identifier, the free balances of
the external currency, and the current block number. -/
structure PalletState where
  vesting : Nat → Option (List VestingInfo)
  lock : Nat → Option Nat
  free : Nat → Nat
  now : Nat

instance : Inhabited PalletState :=
  ⟨⟨fun _ => none, fun _ => none, fun _ => 0, 0⟩⟩

/-- Point update of a storage map. -/
def setMap {α : Type} (m : Nat → α) (k : Nat) (v : α) : Nat → α :=
  fun a => if a = k then v else m a

/-- The running total accumulated by `report_schedule_updates` (and by
`write_lock`'s callers): a left fold of saturating additions of each
schedule's `locked_at` at block `now`. -/
def lockedSum (C : Config) (now : Nat) (l : List VestingInfo) : Nat :=
  l.foldl (fun total s => satAdd C.bmax total (s.locked_at C now)) 0

/-- Translation of `report_schedule_updates` (`lib.rs`): enumerate the schedules, drop any
whose `locked_at(now)` is zero or which the action targets, and return the
survivors together with the saturating total of the survivors' `locked_at`. -/
def report_schedule_updates (C : Config) (now : Nat)
    (schedules : List VestingInfo) (action : VestingAction) :
    List VestingInfo × Nat :=
  let filtered := (schedules.enum.filter
    (fun p => !(p.2.locked_at C now == 0 || action.should_remove p.1))).map Prod.snd
  (filtered, lockedSum C now filtered)

/-- Translation of `write_lock` (`lib.rs`): remove the vesting lock when the new total is
zero, otherwise set the lock to the new total. -/
def write_lock (st : PalletState) (who : Nat) (total_locked_now : Nat) : PalletState :=
  if total_locked_now = 0 then { st with lock := setMap st.lock who none }
  else { st with lock := setMap st.lock who (some total_locked_now) }

/-- Translation of `write_vesting` (`lib.rs`): error when over capacity, delete the entry
when the list is empty, otherwise store it. -/
def write_vesting (C : Config) (st : PalletState) (who : Nat)
    (schedules : List VestingInfo) : Except DispatchError PalletState :=
  if C.maxVestingSchedules < schedules.length then
    .error (.pallet .AtMaxVestingSchedules)
  else if schedules.length = 0 then
    .ok { st with vesting := setMap st.vesting who none }
  else
    .ok { st with vesting := setMap st.vesting who (some schedules) }

/-- Translation of `do_vest` (`lib.rs`): unlock any vested funds of `who`. -/
def do_vest (C : Config) (st : PalletState) (who : Nat) :
    Except DispatchError PalletState :=
  match st.vesting who with
  | none => .error (.pallet .NotVesting)
  | some schedules =>
    let su := report_schedule_updates C st.now schedules .passive
    match write_vesting C st who su.1 with
    | .error e => .error e
    | .ok st1 => .ok (write_lock st1 who su.2)

/-- Translation of `add_vesting_schedule` (`lib.rs`, `VestingSchedule` trait impl): a no-op
when `locked` is zero; otherwise push the new schedule (failing when already
at capacity), recompute, and write back. -/
def add_vesting_schedule (C : Config) (st : PalletState) (who : Nat)
    (locked per_block starting_block : Nat) : Except DispatchError PalletState :=
  if locked = 0 then .ok st
  else
    let vesting_schedule : VestingInfo := ⟨locked, per_block, starting_block⟩
    let schedules := (st.vesting who).getD []
    if C.maxVestingSchedules ≤ schedules.length then
      .error (.pallet .AtMaxVestingSchedules)
    else
      let su := report_schedule_updates C st.now (schedules ++ [vesting_schedule]) .passive
      match write_vesting C st who su.1 with
      | .error e => .error e
      | .ok st1 => .ok (write_lock st1 who su.2)

/-- Translation of `remove_vesting_schedule` (`lib.rs`, `VestingSchedule` trait impl). -/
def remove_vesting_schedule (C : Config) (st : PalletState) (who : Nat)
    (schedule_index : Nat) : Except DispatchError PalletState :=
  match st.vesting who with
  | none => .error (.pallet .NotVesting)
  | some schedules =>
    let su := report_schedule_updates C st.now schedules (.remove schedule_index)
    match write_vesting C st who su.1 with
    | .error e => .error e
    | .ok st1 => .ok (write_lock st1 who su.2)

/-- Translation of `do_vested_transfer` (`lib.rs`): the minimum-amount check, schedule
validation and correction, the capacity check on the target, the external
currency transfer (modelled from the spec's `ValueTransfer` collaborator
contract: it fails exactly when the source's free balance cannot cover the
amount), and finally the infallible `add_vesting_schedule`. -/
def do_vested_transfer (C : Config) (st : PalletState) (source target : Nat)
    (schedule : VestingInfo) : Except DispatchError PalletState :=
  if schedule.locked ≤ C.minVestedTransfer then .error (.pallet .AmountLow)
  else
    match schedule.validate with
    | .error e => .error (.pallet e)
    | .ok _ =>
      let schedule := schedule.correct
      if C.maxVestingSchedules ≤ ((st.vesting target).getD []).length then
        .error (.pallet .AtMaxVestingSchedules)
      else if st.free source < schedule.locked then
        .error .insufficientBalance
      else
        let f1 := setMap st.free source (st.free source - schedule.locked)
        let f2 := setMap f1 target (f1 target + schedule.locked)
        let st1 := { st with free := f2 }
        add_vesting_schedule C st1 target
          schedule.locked schedule.per_block schedule.starting_block

/-- Translation of `merge_schedules` (`lib.rs`): a no-op when the two indices coincide;
otherwise look up both schedules, drop them (plus any finished schedules)
via `report_schedule_updates`, merge them via `merge_vesting_info`, append
the merged schedule when one was produced, and write back. -/
def merge_schedules (C : Config) (st : PalletState) (who : Nat)
    (schedule1_index schedule2_index : Nat) : Except DispatchError PalletState :=
  if schedule1_index = schedule2_index then .ok st
  else
    match st.vesting who with
    | none => .error (.pallet .NotVesting)
    | some vesting =>
      match vesting.get? schedule1_index, vesting.get? schedule2_index with
      | none, _ => .error (.pallet .ScheduleIndexOutOfBounds)
      | some _, none => .error (.pallet .ScheduleIndexOutOfBounds)
      | some schedule1, some schedule2 =>
        let su := report_schedule_updates C st.now vesting
          (.merge schedule1_index schedule2_index)
        match merge_vesting_info C st.now schedule1 schedule2 with
        | .error e => .error e
        | .ok none =>
          match write_vesting C st who su.1 with
          | .error e => .error e
          | .ok st1 => .ok (write_lock st1 who su.2)
        | .ok (some new_schedule) =>
          if C.maxVestingSchedules ≤ su.1.length then
            .error (.pallet .AtMaxVestingSchedules)
          else
            let schedules := su.1 ++ [new_schedule]
            let locked_now := satAdd C.bmax su.2 (new_schedule.locked_at C st.now)
            match write_vesting C st who schedules with
            | .error e => .error e
            | .ok st1 => .ok (write_lock st1 who locked_now)

/-- Translation of `vesting_balance` (`lib.rs`, `VestingSchedule` trait impl): returns `none` when
the account has no schedule set, otherwise the free balance capped total of
the schedules' `locked_at(now)`.  It is a pure projection of the state (the
source method takes no mutable access and performs no writes). -/
def vesting_balance (C : Config) (st : PalletState) (who : Nat) : Option Nat :=
  match st.vesting who with
  | none => none
  | some v =>
    some ((st.free who).min
      (v.foldl (fun total s => satAdd C.bmax (s.locked_at C st.now) total) 0))

/-- The state-changing entry points of the pallet.  `vest` and `vest_other`
both dispatch to `do_vest`; `vested_transfer` and `force_vested_transfer`
both dispatch to `do_vested_transfer` (origin checking is dispatch plumbing,
out of scope). -/
inductive PalletOp
  | vest (who : Nat)
  | vest_other (target : Nat)
  | vested_transfer (source target : Nat) (schedule : VestingInfo)
  | force_vested_transfer (source target : Nat) (schedule : VestingInfo)
  | merge (who : Nat) (schedule1_index schedule2_index : Nat)
  | add (who : Nat) (locked per_block starting_block : Nat)
  | remove (who : Nat) (schedule_index : Nat)

/-- Dispatch a pallet operation against the state. -/
def applyOp (C : Config) : PalletOp → PalletState → Except DispatchError PalletState
  | .vest who, st => do_vest C st who
  | .vest_other target, st => do_vest C st target
  | .vested_transfer source target schedule, st =>
    do_vested_transfer C st source target schedule
  | .force_vested_transfer source target schedule, st =>
    do_vested_transfer C st source target schedule
  | .merge who i j, st => merge_schedules C st who i j
  | .add who locked per_block starting_block, st =>
    add_vesting_schedule C st who locked per_block starting_block
  | .remove who schedule_index, st => remove_vesting_schedule C st who schedule_index

/-- The account whose schedule set and lock an operation rewrites. -/
def PalletOp.account : PalletOp → Nat
  | .vest who => who
  | .vest_other target => target
  | .vested_transfer _ target _ => target
  | .force_vested_transfer _ target _ => target
  | .merge who _ _ => who
  | .add who _ _ _ => who
  | .remove who _ => who

/-- The operations that actually perform the schedule-set/lock write-out:
everything except the two documented no-op paths (`merge_schedules` with
equal indices and the trait `add` with a zero amount). -/
def PalletOp.writesState : PalletOp → Prop
  | .merge _ i j => i ≠ j
  | .add _ locked _ _ => locked ≠ 0
  | _ => True

/-- The per-account lock/schedule-set coherence property: either the account
has no `Vesting` entry and no vesting lock, or its entry is a non-empty list
whose saturating `locked_at` total at the current block is non-zero and
equals the held lock amount. -/
def acctInv (C : Config) (st : PalletState) (a : Nat) : Prop :=
  match st.vesting a with
  | none => st.lock a = none
  | some ss => ss ≠ [] ∧ lockedSum C st.now ss ≠ 0 ∧
      st.lock a = some (lockedSum C st.now ss)

/-- Well-formedness of an account's stored schedules: every stored schedule
has a positive `locked` amount that is representable.  Every reachable state
satisfies this: each write filters out schedules whose `locked_at` (hence
`locked`) is zero, and the merged schedule is checked non-zero. -/
@[reducible] def WFacct (C : Config) (st : PalletState) (a : Nat) : Prop :=
  ∀ s ∈ (st.vesting a).getD [], 1 ≤ s.locked ∧ s.locked ≤ C.bmax

deriving instance DecidableEq for Except

/-- Whether a dispatch result is a success. -/
def isOk : Except DispatchError PalletState → Bool
  | .ok _ => true
  | .error _ => false

/-! ## Concrete configurations and states used by witnesses and counterexamples -/

/-- A configuration and a stale-but-reachable state used to refute the
unamended claim C1: a single schedule fully vested by block 50 whose lock
was last written at an earlier block. -/
def Cx1 : Config := ⟨1000, 3, 5⟩

def stx1 : PalletState :=
  ⟨fun a => if a = 1 then some [⟨10, 1, 0⟩] else none,
   fun a => if a = 1 then some 10 else none,
   fun _ => 100, 50⟩

/-- Witness configuration and state for claim C1: a half-vested schedule at
block 5. -/
def Cw1 : Config := ⟨1000, 3, 5⟩

def stw1 : PalletState :=
  ⟨fun a => if a = 1 then some [⟨10, 1, 0⟩] else none,
   fun a => if a = 1 then some 10 else none,
   fun _ => 100, 5⟩

def stw1' : PalletState := ((applyOp Cw1 (.vest 1) stw1).toOption).getD default

/-- Witness configuration for claim C6: a tiny maximum block number so that
`starting_block + duration` overflows. -/
def Cw6 : Config := ⟨10, 3, 5⟩

/-- Witness state for claims about `do_vested_transfer`. -/
def stw10 : PalletState :=
  ⟨fun _ => none, fun _ => none, fun _ => 1000, 1⟩

/-- Witness state for claim C7. -/
def stw7 : PalletState :=
  ⟨fun a => if a = 1 then some [⟨10, 1, 0⟩] else none,
   fun _ => none, fun _ => 100, 5⟩

/-- Witness state for claim C3: account 7 holds exactly two schedules, both
fully unlocked by block 100. -/
def stw3 : PalletState :=
  ⟨fun a => if a = 7 then some [⟨20, 1, 0⟩, ⟨30, 1, 0⟩] else none,
   fun a => if a = 7 then some 50 else none, fun _ => 0, 100⟩

/-- Witness configuration for claim C5. -/
def Cw5 : Config := ⟨100000, 3, 256⟩

def stw5 : PalletState := ⟨fun _ => none, fun _ => none, fun _ => 10000, 1⟩

/-- Counterexample configuration for claim C4. -/
def Cx4 : Config := ⟨100, 3, 5⟩

/-- Witness configuration for claim C4: the u64 balance bound used by the
pallet's test mock. -/
def Cw4 : Config := ⟨18446744073709551615, 3, 256⟩

/-! ## Basic arithmetic facts about the saturating operations -/

theorem satAdd_comm (B a b : Nat) : satAdd B a b = satAdd B b a := by
  simp [satAdd, Nat.add_comm]

theorem satAdd_le (B a b : Nat) : satAdd B a b ≤ B := Nat.min_le_right _ _

theorem locked_at_le_locked (C : Config) (s : VestingInfo) (t : Nat) :
    s.locked_at C t ≤ s.locked := by
  unfold VestingInfo.locked_at
  split
  · exact Nat.le_refl _
  · exact Nat.sub_le _ _

/-- A schedule with positive `locked` whose ending block exists ends at least
one block after it starts. -/
theorem ending_block_lower (C : Config) (s : VestingInfo) (e : Nat)
    (hB : 0 < C.bmax) (h1 : 1 ≤ s.locked) (h3 : s.per_block ≤ C.bmax)
    (he : s.ending_block C = some e) :
    s.starting_block + 1 ≤ e ∧ e ≤ C.bmax := by
  unfold VestingInfo.ending_block at he
  simp only [] at he
  split at he
  case isFalse => exact absurd he (by simp)
  case isTrue hle =>
    have hdur : 1 ≤ satAdd C.bmax s.locked (max s.per_block 1 - 1) / max s.per_block 1 := by
      rw [Nat.le_div_iff_mul_le (by omega)]
      unfold satAdd
      omega
    injection he with he
    omega

/-- A bounded schedule with positive `locked` that has not ended by `now`
still has a positive `locked_at` there. -/
theorem locked_at_pos_of_active (C : Config) (s : VestingInfo) (e now : Nat)
    (h1 : 1 ≤ s.locked) (h2 : s.locked ≤ C.bmax)
    (he : s.ending_block C = some e) (hn : now < e) :
    1 ≤ s.locked_at C now := by
  unfold VestingInfo.locked_at
  split
  · exact h1
  case isFalse hstart =>
    unfold VestingInfo.ending_block at he
    simp only [] at he
    split at he
    case isFalse => exact absurd he (by simp)
    case isTrue hle =>
      injection he with he
      subst he
      rcases Nat.eq_zero_or_pos s.per_block with hpb | hpb
      · simp [satMul, hpb]
        omega
      · have hepb : max s.per_block 1 = s.per_block := by omega
        rw [hepb] at hn hle
        set el := now - s.starting_block with hel
        have helpos : 1 ≤ el := by omega
        have hlt : el + 1 ≤ satAdd C.bmax s.locked (s.per_block - 1) / s.per_block := by
          omega
        rw [Nat.le_div_iff_mul_le (by omega)] at hlt
        unfold satAdd at hlt
        have hmul : (el + 1) * s.per_block = el * s.per_block + s.per_block := by
          rw [Nat.succ_mul]
        have hkey : el * s.per_block ≤ s.locked - 1 := by omega
        unfold satMul
        have hco : s.per_block * el = el * s.per_block := Nat.mul_comm _ _
        omega

/-- A schedule evaluated at or before its starting block is fully locked;
stated for a corrected literal schedule as built by `merge_vesting_info`. -/
theorem locked_at_correct_mk_of_le (C : Config) (L P S t : Nat) (h : t ≤ S) :
    VestingInfo.locked_at C (VestingInfo.correct ⟨L, P, S⟩) t = L := by
  unfold VestingInfo.correct VestingInfo.locked_at
  dsimp only
  rw [if_pos h]

/-- If `merge_vesting_info` produces a schedule from two stored (positive,
bounded) schedules, that schedule's `locked_at` at `now` is positive. -/
theorem merge_some_locked_at_pos (C : Config) (now : Nat) (s1 s2 n : VestingInfo)
    (h11 : 1 ≤ s1.locked) (h12 : s1.locked ≤ C.bmax)
    (h21 : 1 ≤ s2.locked) (h22 : s2.locked ≤ C.bmax)
    (hm : merge_vesting_info C now s1 s2 = .ok (some n)) :
    1 ≤ n.locked_at C now := by
  unfold merge_vesting_info at hm
  split at hm
  · exact absurd hm (by simp)
  · exact absurd hm (by simp)
  case h_3 e1 e2 heq1 heq2 =>
    split at hm
    · exact absurd hm (by simp)
    case isFalse hboth =>
      split at hm
      case isTrue h1le =>
        injection hm with hm
        injection hm with hm
        subst hm
        exact locked_at_pos_of_active C s2 e2 now h21 h22 heq2 (by omega)
      case isFalse h1gt =>
        split at hm
        case isTrue h2le =>
          injection hm with hm
          injection hm with hm
          subst hm
          exact locked_at_pos_of_active C s1 e1 now h11 h12 heq1 (by omega)
        case isFalse h2gt =>
          simp only [] at hm
          split at hm
          · exact absurd hm (by simp)
          case isFalse hlocked =>
            injection hm with hm
            injection hm with hm
            subst hm
            rw [locked_at_correct_mk_of_le C _ _ _ now (by omega)]
            omega

/-! ## Facts about `lockedSum` and `report_schedule_updates` -/

theorem lockedSum_append (C : Config) (now : Nat) (l : List VestingInfo) (y : VestingInfo) :
    lockedSum C now (l ++ [y]) =
      satAdd C.bmax (lockedSum C now l) (y.locked_at C now) := by
  simp [lockedSum, List.foldl_append]

theorem foldl_satAdd_pos (C : Config) (now : Nat) (l : List VestingInfo) :
    ∀ t : Nat, 1 ≤ t → t ≤ C.bmax →
      1 ≤ l.foldl (fun total s => satAdd C.bmax total (s.locked_at C now)) t := by
  induction l with
  | nil => intro t h1 _; simpa using h1
  | cons h rest ih =>
    intro t h1 h2
    simp only [List.foldl_cons]
    exact ih _ (by unfold satAdd; omega) (satAdd_le _ _ _)

theorem lockedSum_pos (C : Config) (now : Nat) (l : List VestingInfo)
    (hB : 0 < C.bmax) (hl : l ≠ [])
    (hpos : ∀ s ∈ l, s.locked_at C now ≠ 0) :
    lockedSum C now l ≠ 0 := by
  match l with
  | [] => exact absurd rfl hl
  | h :: rest =>
    have hh : h.locked_at C now ≠ 0 := hpos h (by simp)
    have : 1 ≤ lockedSum C now (h :: rest) := by
      unfold lockedSum
      simp only [List.foldl_cons]
      exact foldl_satAdd_pos C now rest _ (by unfold satAdd; omega) (satAdd_le _ _ _)
    omega

theorem report_snd (C : Config) (now : Nat) (ss : List VestingInfo) (action : VestingAction) :
    (report_schedule_updates C now ss action).2 =
      lockedSum C now (report_schedule_updates C now ss action).1 := rfl

theorem report_mem_pos (C : Config) (now : Nat) (ss : List VestingInfo)
    (action : VestingAction) :
    ∀ s ∈ (report_schedule_updates C now ss action).1, s.locked_at C now ≠ 0 := by
  intro s hs
  unfold report_schedule_updates at hs
  simp only [List.mem_map, List.mem_filter] at hs
  obtain ⟨⟨i, s'⟩, ⟨_, hcond⟩, hsnd⟩ := hs
  subst hsnd
  simp only [Bool.not_eq_true', Bool.or_eq_false_iff, beq_eq_false_iff_ne] at hcond
  exact hcond.1

theorem report_length_le (C : Config) (now : Nat) (ss : List VestingInfo)
    (action : VestingAction) :
    (report_schedule_updates C now ss action).1.length ≤ ss.length := by
  unfold report_schedule_updates
  dsimp only
  rw [List.length_map]
  calc (ss.enum.filter _).length ≤ ss.enum.length := List.length_filter_le _ _
    _ = ss.length := List.enum_length

/-! ## The write-out step establishes the per-account coherence property -/

/-- Any successful `write_vesting` followed by `write_lock` of the matching
saturating total, where every written schedule is still partially locked,
leaves the account's entry and lock coherent. -/
theorem writeout_acctInv (C : Config) (st st1 : PalletState) (who : Nat)
    (ss : List VestingInfo) (hB : 0 < C.bmax)
    (hpos : ∀ s ∈ ss, s.locked_at C st.now ≠ 0)
    (hwv : write_vesting C st who ss = .ok st1) :
    acctInv C (write_lock st1 who (lockedSum C st.now ss)) who := by
  unfold write_vesting at hwv
  split at hwv
  · exact absurd hwv (by simp)
  split at hwv
  case isTrue hlen =>
    injection hwv with hwv
    subst hwv
    have hempty : ss = [] := List.length_eq_zero.mp hlen
    subst hempty
    have h0 : lockedSum C st.now [] = 0 := rfl
    unfold write_lock
    rw [if_pos h0]
    unfold acctInv
    simp [setMap]
  case isFalse hlen =>
    injection hwv with hwv
    subst hwv
    have hne : ss ≠ [] := by
      intro h
      subst h
      simp at hlen
    have hsum : lockedSum C st.now ss ≠ 0 := lockedSum_pos C st.now ss hB hne hpos
    unfold write_lock
    rw [if_neg hsum]
    unfold acctInv
    simp only [setMap, if_pos rfl]
    exact ⟨hne, hsum, rfl⟩

/-! ## Per-operation coherence lemmas -/

theorem do_vest_acctInv (C : Config) (st st' : PalletState) (who : Nat)
    (hB : 0 < C.bmax) (h : do_vest C st who = .ok st') :
    acctInv C st' who := by
  unfold do_vest at h
  split at h
  · exact absurd h (by simp)
  case h_2 schedules heq =>
    simp only [] at h
    split at h
    · exact absurd h (by simp)
    case h_2 st1 hwv =>
      injection h with h
      subst h
      exact writeout_acctInv C st st1 who _ hB
        (report_mem_pos C st.now schedules .passive) hwv

theorem add_acctInv (C : Config) (st st' : PalletState) (who : Nat)
    (locked per_block starting_block : Nat)
    (hB : 0 < C.bmax) (hl : locked ≠ 0)
    (h : add_vesting_schedule C st who locked per_block starting_block = .ok st') :
    acctInv C st' who := by
  unfold add_vesting_schedule at h
  rw [if_neg hl] at h
  simp only [] at h
  split at h
  · exact absurd h (by simp)
  case isFalse hcap =>
    split at h
    · exact absurd h (by simp)
    case h_2 st1 hwv =>
      injection h with h
      subst h
      exact writeout_acctInv C st st1 who _ hB
        (report_mem_pos C st.now _ .passive) hwv

theorem remove_acctInv (C : Config) (st st' : PalletState) (who : Nat)
    (schedule_index : Nat) (hB : 0 < C.bmax)
    (h : remove_vesting_schedule C st who schedule_index = .ok st') :
    acctInv C st' who := by
  unfold remove_vesting_schedule at h
  split at h
  · exact absurd h (by simp)
  case h_2 schedules heq =>
    simp only [] at h
    split at h
    · exact absurd h (by simp)
    case h_2 st1 hwv =>
      injection h with h
      subst h
      exact writeout_acctInv C st st1 who _ hB
        (report_mem_pos C st.now schedules _) hwv

theorem do_vested_transfer_acctInv (C : Config) (st st' : PalletState)
    (source target : Nat) (schedule : VestingInfo) (hB : 0 < C.bmax)
    (h : do_vested_transfer C st source target schedule = .ok st') :
    acctInv C st' target := by
  unfold do_vested_transfer at h
  split at h
  · exact absurd h (by simp)
  case isFalse hmin =>
    split at h
    · exact absurd h (by simp)
    case h_2 hval =>
      simp only [] at h
      split at h
      · exact absurd h (by simp)
      split at h
      · exact absurd h (by simp)
      exact add_acctInv C _ st' target _ _ _ hB
        (by simp only [VestingInfo.correct]; omega) h

theorem merge_acctInv (C : Config) (st st' : PalletState) (who i j : Nat)
    (hB : 0 < C.bmax) (hWF : WFacct C st who) (hij : i ≠ j)
    (h : merge_schedules C st who i j = .ok st') :
    acctInv C st' who := by
  unfold merge_schedules at h
  rw [if_neg hij] at h
  split at h
  · exact absurd h (by simp)
  case h_2 vesting heq =>
    split at h
    · exact absurd h (by simp)
    · exact absurd h (by simp)
    case h_3 schedule1 schedule2 heq1 heq2 =>
      simp only [] at h
      split at h
      · exact absurd h (by simp)
      case h_2 hmerge =>
        split at h
        · exact absurd h (by simp)
        case h_2 st1 hwv =>
          injection h with h
          subst h
          exact writeout_acctInv C st st1 who _ hB
            (report_mem_pos C st.now vesting _) hwv
      case h_3 new_schedule hmerge =>
        split at h
        · exact absurd h (by simp)
        case isFalse hcap =>
          try simp only [] at h
          split at h
          · exact absurd h (by simp)
          case h_2 st1 hwv =>
            injection h with h
            subst h
            have hWFv : ∀ s ∈ vesting, 1 ≤ s.locked ∧ s.locked ≤ C.bmax := by
              intro s hs
              have := hWF s
              rw [heq] at this
              exact this hs
            have h1 := hWFv schedule1 (List.get?_mem heq1)
            have h2 := hWFv schedule2 (List.get?_mem heq2)
            have hnew : 1 ≤ new_schedule.locked_at C st.now :=
              merge_some_locked_at_pos C st.now schedule1 schedule2 new_schedule
                h1.1 h1.2 h2.1 h2.2 hmerge
            have hpos : ∀ s ∈ (report_schedule_updates C st.now vesting
                (.merge i j)).1 ++ [new_schedule], s.locked_at C st.now ≠ 0 := by
              intro s hs
              rcases List.mem_append.mp hs with hs | hs
              · exact report_mem_pos C st.now vesting _ s hs
              · rw [List.mem_singleton.mp hs]
                omega
            have hrw : satAdd C.bmax (report_schedule_updates C st.now vesting
                  (.merge i j)).2 (new_schedule.locked_at C st.now) =
                lockedSum C st.now ((report_schedule_updates C st.now vesting
                  (.merge i j)).1 ++ [new_schedule]) :=
              (lockedSum_append C st.now _ _).symm
            rw [hrw]
            exact writeout_acctInv C st st1 who _ hB hpos hwv

/-! ## Claim C1 -/

/-- C1 (amended): after every successful state-changing operation that
actually performs the schedule-set/lock write-out (all of `vest`,
`vest_other`, `vested_transfer`, `force_vested_transfer`, `merge_schedules`,
and the trait's add/remove operations, excluding only the two documented
no-op success paths: `merge_schedules` with equal indices and `add` with a
zero amount), and from any state whose stored schedules for the operated
account have positive, representable `locked` amounts, the balance lock held
for that account equals the saturating sum over all stored schedules of
`locked_at(schedule, now)`; when that sum is zero the lock is removed and
the `Vesting` entry is deleted, so a persisted schedule set is never
empty. -/
theorem claim1_lock_coherent_after_write (C : Config) (op : PalletOp)
    (st st' : PalletState) (hB : 0 < C.bmax)
    (hWF : WFacct C st op.account) (hw : op.writesState)
    (hok : applyOp C op st = .ok st') :
    acctInv C st' op.account := by
  cases op with
  | vest who => exact do_vest_acctInv C st st' who hB hok
  | vest_other target => exact do_vest_acctInv C st st' target hB hok
  | vested_transfer source target schedule =>
    exact do_vested_transfer_acctInv C st st' source target schedule hB hok
  | force_vested_transfer source target schedule =>
    exact do_vested_transfer_acctInv C st st' source target schedule hB hok
  | merge who i j => exact merge_acctInv C st st' who i j hB hWF hw hok
  | add who locked per_block starting_block =>
    exact add_acctInv C st st' who locked per_block starting_block hB hw hok
  | remove who schedule_index =>
    exact remove_acctInv C st st' who schedule_index hB hok

/-- C1 counterexample: `merge_schedules` with equal indices (one of the
operations the claim quantifies over) succeeds without performing the
write-out, so afterwards the stored schedule's `locked_at` total at the
current block is zero while the entry is still present and the lock still
holds the stale amount — contradicting the claimed equality and deletion. -/
theorem claim1_counterexample :
    applyOp Cx1 (.merge 1 0 0) stx1 = .ok stx1 ∧ ¬ acctInv Cx1 stx1 1 := by
  constructor
  · rfl
  · intro hinv
    exact hinv.2.1 (by decide)

theorem claim1_witness :
    (0 < Cw1.bmax ∧ WFacct Cw1 stw1 (PalletOp.vest 1).account ∧
      (PalletOp.vest 1).writesState ∧ applyOp Cw1 (.vest 1) stw1 = .ok stw1') ∧
    acctInv Cw1 stw1' (PalletOp.vest 1).account := by
  have h4 : applyOp Cw1 (.vest 1) stw1 = .ok stw1' := rfl
  exact ⟨⟨by decide, by decide, trivial, h4⟩,
    claim1_lock_coherent_after_write Cw1 (.vest 1) stw1 stw1' (by decide)
      (by decide) trivial h4⟩

/-! ## Claim C9 -/

/-- C9: calling `merge_schedules` with both schedule indices equal returns
success and performs no side effects at all — the resulting state is exactly
the input state, with no filtering of ended schedules. -/
theorem claim9_merge_equal_indices_noop (C : Config) (st : PalletState)
    (who i : Nat) :
    applyOp C (.merge who i i) st = .ok st := by
  show merge_schedules C st who i i = .ok st
  unfold merge_schedules
  rw [if_pos rfl]

/-! ## Claim C6 -/

/-- C6: `merge_vesting_info` fails with the arithmetic-overflow dispatch
error whenever computing either input schedule's ending block overflows the
maximum representable block number (modelled by `ending_block` returning
`none`). -/
theorem claim6_merge_overflow (C : Config) (now : Nat) (s1 s2 : VestingInfo)
    (h : s1.ending_block C = none ∨ s2.ending_block C = none) :
    merge_vesting_info C now s1 s2 = .error .arithmeticOverflow := by
  unfold merge_vesting_info
  rcases h with h | h
  · rw [h]
  · rw [h]
    cases h1 : s1.ending_block C <;> rfl

theorem claim6_witness :
    ((⟨20, 1, 5⟩ : VestingInfo).ending_block Cw6 = none ∨
      (⟨3, 1, 0⟩ : VestingInfo).ending_block Cw6 = none) ∧
    merge_vesting_info Cw6 0 ⟨20, 1, 5⟩ ⟨3, 1, 0⟩ = .error .arithmeticOverflow :=
  ⟨by decide, claim6_merge_overflow Cw6 0 ⟨20, 1, 5⟩ ⟨3, 1, 0⟩ (by decide)⟩

/-! ## Claim C10 -/

/-- C10: a vested transfer whose proposed schedule has `locked = 0` fails
with `AmountLow` — the minimum-transfer check runs before schedule
validation, so the failure is not `InvalidScheduleParams` and not a silent
no-op, and the transactional error result means no value moves and no state
changes. -/
theorem claim10_zero_locked_amount_low (C : Config) (st : PalletState)
    (source target : Nat) (schedule : VestingInfo)
    (h : schedule.locked = 0) :
    do_vested_transfer C st source target schedule = .error (.pallet .AmountLow) := by
  unfold do_vested_transfer
  rw [if_pos (by omega)]

theorem claim10_witness :
    (VestingInfo.locked ⟨0, 64, 10⟩ = 0) ∧
    do_vested_transfer Cw1 stw10 3 4 ⟨0, 64, 10⟩ = .error (.pallet .AmountLow) :=
  ⟨rfl, claim10_zero_locked_amount_low Cw1 stw10 3 4 ⟨0, 64, 10⟩ rfl⟩

/-! ## Claim C7 -/

theorem foldl_satAdd_flip (C : Config) (now : Nat) (l : List VestingInfo) :
    ∀ t : Nat,
      l.foldl (fun total s => satAdd C.bmax (s.locked_at C now) total) t =
        l.foldl (fun total s => satAdd C.bmax total (s.locked_at C now)) t := by
  induction l with
  | nil => intro t; rfl
  | cons h rest ih =>
    intro t
    simp only [List.foldl_cons]
    rw [satAdd_comm]
    exact ih _

/-- C7: `vesting_balance` returns `none` exactly when the account has no
stored schedule set, and otherwise returns the minimum of the account's free
balance and the saturating sum over all stored schedules of
`locked_at(schedule, now)`.  It is a read-only projection: the source method
performs no storage writes, which the embedding reflects by returning only
an `Option` value and no state. -/
theorem claim7_vesting_balance_projection (C : Config) (st : PalletState) (who : Nat) :
    (vesting_balance C st who = none ↔ st.vesting who = none) ∧
    (∀ ss, st.vesting who = some ss →
      vesting_balance C st who =
        some (min (st.free who) (lockedSum C st.now ss))) := by
  constructor
  · unfold vesting_balance
    cases h : st.vesting who <;> simp
  · intro ss h
    unfold vesting_balance
    rw [h]
    dsimp only
    unfold lockedSum
    rw [foldl_satAdd_flip]

theorem claim7_witness :
    vesting_balance Cw1 stw7 1 = some 5 ∧ vesting_balance Cw1 stw7 2 = none := by
  constructor
  · exact ((claim7_vesting_balance_projection Cw1 stw7 1).2 [⟨10, 1, 0⟩] rfl).trans
      (by decide)
  · exact (claim7_vesting_balance_projection Cw1 stw7 2).1.mpr rfl

/-! ## Claim C8 -/

/-- C8: merging is commutative on the both-active branch — whenever both
schedules' ending blocks exist and lie strictly after `now`,
`merge_vesting_info C now a b = merge_vesting_info C now b a`. -/
theorem claim8_merge_comm (C : Config) (now : Nat) (a b : VestingInfo)
    (ea eb : Nat) (hea : a.ending_block C = some ea)
    (heb : b.ending_block C = some eb) (hna : now < ea) (hnb : now < eb) :
    merge_vesting_info C now a b = merge_vesting_info C now b a := by
  unfold merge_vesting_info
  rw [hea, heb]
  dsimp only
  have hA : ¬(ea ≤ now ∧ eb ≤ now) := by omega
  have hA' : ¬(eb ≤ now ∧ ea ≤ now) := by omega
  have h1 : ¬ea ≤ now := by omega
  have h2 : ¬eb ≤ now := by omega
  rw [if_neg hA, if_neg hA', if_neg h1, if_neg h2, if_neg h2, if_neg h1]
  rw [satAdd_comm C.bmax (b.locked_at C now) (a.locked_at C now),
    Nat.max_comm eb ea, sup_right_comm now b.starting_block a.starting_block]

/-- Witness schedules for claim C8: both active at block 12. -/
theorem claim8_witness :
    ((⟨100, 10, 10⟩ : VestingInfo).ending_block Cw1 = some 20 ∧
      (⟨60, 2, 5⟩ : VestingInfo).ending_block Cw1 = some 35 ∧ 12 < 20 ∧ 12 < 35) ∧
    merge_vesting_info Cw1 12 ⟨100, 10, 10⟩ ⟨60, 2, 5⟩ =
      merge_vesting_info Cw1 12 ⟨60, 2, 5⟩ ⟨100, 10, 10⟩ :=
  ⟨⟨by decide, by decide, by decide, by decide⟩,
    claim8_merge_comm Cw1 12 ⟨100, 10, 10⟩ ⟨60, 2, 5⟩ 20 35
      (by decide) (by decide) (by decide) (by decide)⟩

/-! ## Claim C3 -/

/-- C3: when both schedules' ending blocks are at or before `now`, merging
returns no replacement schedule; when exactly one has ended, merging returns
the other schedule completely unchanged; and a `merge_schedules` call on an
account holding exactly those two (both-ended) schedules deletes the
account's `Vesting` entry and removes its lock. -/
theorem claim3_merge_ended_branches (C : Config) (now : Nat) (a b : VestingInfo)
    (ea eb : Nat) (hea : a.ending_block C = some ea)
    (heb : b.ending_block C = some eb) :
    (ea ≤ now → eb ≤ now → merge_vesting_info C now a b = .ok none) ∧
    (ea ≤ now → now < eb → merge_vesting_info C now a b = .ok (some b)) ∧
    (now < ea → eb ≤ now → merge_vesting_info C now a b = .ok (some a)) ∧
    (∀ st : PalletState, ∀ who : Nat, st.now = now →
      st.vesting who = some [a, b] → ea ≤ now → eb ≤ now →
      (applyOp C (.merge who 0 1) st).map (fun s => (s.vesting who, s.lock who)) =
        .ok (none, none)) := by
  have hnone : ∀ (h1 : ea ≤ now) (h2 : eb ≤ now),
      merge_vesting_info C now a b = .ok none := by
    intro h1 h2
    unfold merge_vesting_info
    rw [hea, heb]
    dsimp only
    rw [if_pos ⟨h1, h2⟩]
  refine ⟨hnone, ?_, ?_, ?_⟩
  · intro h1 h2
    unfold merge_vesting_info
    rw [hea, heb]
    dsimp only
    rw [if_neg (by omega), if_pos h1]
  · intro h1 h2
    unfold merge_vesting_info
    rw [hea, heb]
    dsimp only
    rw [if_neg (by omega), if_neg (by omega), if_pos h2]
  · intro st who hnow hv h1 h2
    show (merge_schedules C st who 0 1).map _ = _
    unfold merge_schedules
    rw [if_neg (by omega)]
    rw [hv]
    simp only [List.get?]
    try dsimp only
    rw [hnow, hnone h1 h2]
    try dsimp only
    have hsu : (report_schedule_updates C now [a, b] (.merge 0 1)).1 = [] := by
      unfold report_schedule_updates VestingAction.should_remove
      simp
      intro i s hmem hlocked h0
      simp [List.enum, List.enumFrom] at hmem
      rcases hmem with ⟨hi, _⟩ | ⟨hi, _⟩ <;> omega
    have hsu2 : (report_schedule_updates C now [a, b] (.merge 0 1)).2 = 0 := by
      rw [report_snd, hsu]
      rfl
    rw [hsu, hsu2]
    unfold write_vesting write_lock
    simp [setMap, Except.map]

theorem claim3_witness :
    merge_vesting_info Cw1 100 ⟨20, 1, 0⟩ ⟨30, 1, 0⟩ = .ok none ∧
    merge_vesting_info Cw1 25 ⟨20, 1, 0⟩ ⟨30, 1, 0⟩ = .ok (some ⟨30, 1, 0⟩) ∧
    merge_vesting_info Cw1 25 ⟨30, 1, 0⟩ ⟨20, 1, 0⟩ = .ok (some ⟨30, 1, 0⟩) ∧
    (applyOp Cw1 (.merge 7 0 1) stw3).map (fun s => (s.vesting 7, s.lock 7)) =
      .ok (none, none) := by
  refine ⟨?_, ?_, ?_, ?_⟩
  · exact (claim3_merge_ended_branches Cw1 100 ⟨20, 1, 0⟩ ⟨30, 1, 0⟩ 20 30
      (by decide) (by decide)).1 (by decide) (by decide)
  · exact (claim3_merge_ended_branches Cw1 25 ⟨20, 1, 0⟩ ⟨30, 1, 0⟩ 20 30
      (by decide) (by decide)).2.1 (by decide) (by decide)
  · exact (claim3_merge_ended_branches Cw1 25 ⟨30, 1, 0⟩ ⟨20, 1, 0⟩ 30 20
      (by decide) (by decide)).2.2.1 (by decide) (by decide)
  · exact (claim3_merge_ended_branches Cw1 100 ⟨20, 1, 0⟩ ⟨30, 1, 0⟩ 20 30
      (by decide) (by decide)).2.2.2 stw3 7 rfl rfl (by decide) (by decide)

/-! ## Claim C5 -/

theorem write_vesting_some_ok (C : Config) (st : PalletState) (who : Nat)
    (ss : List VestingInfo) (h : ss.length ≤ C.maxVestingSchedules) :
    ∃ st1, write_vesting C st who ss = .ok st1 := by
  unfold write_vesting
  rw [if_neg (by omega)]
  split
  · exact ⟨_, rfl⟩
  · exact ⟨_, rfl⟩

/-- When the schedule list fits, the final `write_vesting`/`write_lock`
write-out succeeds. -/
theorem final_write_isOk (C : Config) (st : PalletState) (who : Nat)
    (ss : List VestingInfo) (total : Nat)
    (h : ss.length ≤ C.maxVestingSchedules) :
    isOk (match write_vesting C st who ss with
      | .error e => .error e
      | .ok st1 => .ok (write_lock st1 who total)) = true := by
  obtain ⟨st1, hwv⟩ := write_vesting_some_ok C st who ss h
  rw [hwv]
  rfl

/-- The only error `add_vesting_schedule` can produce is the capacity
error. -/
theorem add_error_atmax (C : Config) (st : PalletState) (who : Nat)
    (locked per_block starting_block : Nat) (e : DispatchError)
    (h : add_vesting_schedule C st who locked per_block starting_block = .error e) :
    e = .pallet .AtMaxVestingSchedules := by
  unfold add_vesting_schedule at h
  split at h
  · exact absurd h (by simp)
  · simp only [] at h
    split at h
    case isTrue =>
      injection h with h
      exact h.symm
    case isFalse =>
      split at h
      case h_1 e' hwv =>
        have he' : e' = DispatchError.pallet .AtMaxVestingSchedules := by
          unfold write_vesting at hwv
          split at hwv
          · injection hwv with h2
            exact h2.symm
          · split at hwv <;> exact absurd hwv (by simp)
        injection h with h
        rw [← h, he']
      case h_2 => exact absurd h (by simp)

/-- C5: `do_vested_transfer` (used by both `vested_transfer` and
`force_vested_transfer`) fails with `AmountLow` exactly when the proposed
schedule's `locked` is at most `MinVestedTransfer`; and with `locked` one
above the threshold and an otherwise-valid schedule (non-zero `per_block`,
target below capacity, source sufficiently funded) the call succeeds. -/
theorem claim5_amount_low_iff (C : Config) (st : PalletState)
    (source target : Nat) (schedule : VestingInfo) :
    (do_vested_transfer C st source target schedule =
        .error (.pallet .AmountLow) ↔
      schedule.locked ≤ C.minVestedTransfer) ∧
    (schedule.locked = C.minVestedTransfer + 1 → schedule.per_block ≠ 0 →
      ((st.vesting target).getD []).length < C.maxVestingSchedules →
      schedule.locked ≤ st.free source →
      isOk (do_vested_transfer C st source target schedule) = true) := by
  constructor
  · constructor
    · intro h
      by_contra hc
      unfold do_vested_transfer at h
      rw [if_neg hc] at h
      split at h
      case h_1 e' heq =>
        unfold VestingInfo.validate at heq
        split at heq
        · injection heq with heq
          rw [← heq] at h
          simp at h
        · exact absurd heq (by simp)
      case h_2 hval =>
        simp only [] at h
        split at h
        · simp at h
        split at h
        · simp at h
        have := add_error_atmax C _ target _ _ _ _ h
        simp at this
    · intro h
      unfold do_vested_transfer
      rw [if_pos h]
  · intro h1 h2 h3 h4
    unfold do_vested_transfer
    rw [if_neg (by omega)]
    have hval : schedule.validate = .ok () := by
      unfold VestingInfo.validate
      rw [if_neg (by omega)]
    rw [hval]
    simp only []
    have hcl : (VestingInfo.correct schedule).locked = schedule.locked := rfl
    rw [if_neg (by omega), if_neg (by rw [hcl]; omega)]
    unfold add_vesting_schedule
    rw [if_neg (by rw [hcl]; omega)]
    simp only []
    rw [if_neg (by omega)]
    try dsimp only
    refine final_write_isOk C _ target _ _ ?_
    refine le_trans (report_length_le _ _ _ _) ?_
    rw [List.length_append]
    simp
    omega

theorem claim5_witness :
    do_vested_transfer Cw5 stw5 3 4 ⟨256, 64, 10⟩ = .error (.pallet .AmountLow) ∧
    isOk (do_vested_transfer Cw5 stw5 3 4 ⟨257, 64, 10⟩) = true :=
  ⟨(claim5_amount_low_iff Cw5 stw5 3 4 ⟨256, 64, 10⟩).1.mpr (by decide),
   (claim5_amount_low_iff Cw5 stw5 3 4 ⟨257, 64, 10⟩).2 (by decide) (by decide)
     (by decide) (by decide)⟩

/-! ## Claim C4 -/

/-- C4 (amended): for every schedule whose `per_block` is at least one and
whose round-up numerator `locked + per_block - 1` stays within the maximum
representable balance, `locked_at` is non-increasing in time, equals zero at
the schedule's ending block, and stays zero at every later block.  (For a
stored `per_block` of zero — which `ending_block` defensively treats as one —
the schedule never unlocks, so `locked_at` at the ending block is the whole
`locked` amount, refuting the unrestricted claim.) -/
theorem claim4_locked_at_curve (C : Config) (s : VestingInfo)
    (hpb : 1 ≤ s.per_block) (hsat : s.locked + s.per_block - 1 ≤ C.bmax) :
    (∀ t1 t2, t1 ≤ t2 → s.locked_at C t2 ≤ s.locked_at C t1) ∧
    (∀ e, s.ending_block C = some e →
      s.locked_at C e = 0 ∧ ∀ t, e ≤ t → s.locked_at C t = 0) := by
  constructor
  · intro t1 t2 h12
    unfold VestingInfo.locked_at satMul
    have hm : s.per_block * (t1 - s.starting_block) ≤
        s.per_block * (t2 - s.starting_block) :=
      Nat.mul_le_mul_left _ (by omega)
    split <;> split <;> omega
  · intro e he
    have hzero : ∀ t, e ≤ t → s.locked_at C t = 0 := by
      unfold VestingInfo.ending_block at he
      simp only [] at he
      split at he
      case isFalse => exact absurd he (by simp)
      case isTrue hle =>
        injection he with he
        have hepb : max s.per_block 1 = s.per_block := by omega
        rw [hepb] at he hle
        have hsadd : satAdd C.bmax s.locked (s.per_block - 1) =
            s.locked + (s.per_block - 1) := by
          unfold satAdd
          omega
        rw [hsadd] at he hle
        rcases Nat.eq_zero_or_pos s.locked with hl0 | hl1
        · intro t ht
          unfold VestingInfo.locked_at
          split <;> omega
        · have hge : s.locked ≤
              s.per_block * ((s.locked + (s.per_block - 1)) / s.per_block) := by
            have hdm := Nat.div_add_mod (s.locked + (s.per_block - 1)) s.per_block
            have hmlt := Nat.mod_lt (s.locked + (s.per_block - 1))
              (show 0 < s.per_block by omega)
            omega
          have hq1 : 1 ≤ (s.locked + (s.per_block - 1)) / s.per_block := by
            rw [Nat.one_le_div_iff (by omega)]
            omega
          intro t ht
          have hmono : s.per_block * ((s.locked + (s.per_block - 1)) / s.per_block) ≤
              s.per_block * (t - s.starting_block) :=
            Nat.mul_le_mul_left _ (by omega)
          unfold VestingInfo.locked_at satMul
          split <;> omega
    exact ⟨hzero e (Nat.le_refl e), hzero⟩

/-- C4 counterexample: the degenerate (legacy) schedule with `per_block = 0`
has ending block `starting_block + locked`, but `locked_at` there is still
the full `locked` amount, not zero. -/
theorem claim4_counterexample :
    (⟨1, 0, 0⟩ : VestingInfo).ending_block Cx4 = some 1 ∧
    (⟨1, 0, 0⟩ : VestingInfo).locked_at Cx4 1 = 1 := by decide

theorem claim4_witness :
    (1 ≤ (⟨1280, 128, 0⟩ : VestingInfo).per_block ∧
      1280 + 128 - 1 ≤ Cw4.bmax) ∧
    (⟨1280, 128, 0⟩ : VestingInfo).locked_at Cw4 0 = 1280 ∧
    (⟨1280, 128, 0⟩ : VestingInfo).locked_at Cw4 9 = 128 ∧
    (⟨1280, 128, 0⟩ : VestingInfo).locked_at Cw4 10 = 0 ∧
    (⟨1280, 128, 0⟩ : VestingInfo).ending_block Cw4 = some 10 ∧
    (⟨1280, 128, 0⟩ : VestingInfo).locked_at Cw4 9 ≤
      (⟨1280, 128, 0⟩ : VestingInfo).locked_at Cw4 0 := by
  refine ⟨⟨by decide, by decide⟩, by decide, by decide, ?_, by decide, ?_⟩
  · exact ((claim4_locked_at_curve Cw4 ⟨1280, 128, 0⟩ (by decide) (by decide)).2
      10 (by decide)).1
  · exact (claim4_locked_at_curve Cw4 ⟨1280, 128, 0⟩ (by decide) (by decide)).1
      0 9 (by decide)

/-! ## Claim C2 -/

theorem min_one_div (L D : Nat) (hL : 1 ≤ L) :
    min (if L < D then 1 else L / D) L = if L < D then 1 else L / D := by
  split
  · omega
  · have := Nat.div_le_self L D
    omega

/-- C2 (amended): for schedules `a` and `b` with positive, representable
`locked` and representable `per_block`, whose ending blocks are both
strictly after `now`, merging returns `some s` with
`s.locked = locked_at(a, now) + locked_at(b, now)` (saturating),
`s.starting_block = max (max now a.starting_block) b.starting_block`, and
`s.per_block = 1` when `duration > s.locked`, otherwise
`s.locked / duration`, where
`duration = max ea eb - s.starting_block`.  (For degenerate schedules with
`locked = 0` — never produced by a validated transfer — both ending blocks
can still lie after `now` while the combined locked amount is zero, and the
merge then returns `none` instead, refuting the unrestricted claim.) -/
theorem claim2_merge_both_active (C : Config) (now : Nat) (a b : VestingInfo)
    (ea eb : Nat) (hB : 0 < C.bmax)
    (ha1 : 1 ≤ a.locked) (ha2 : a.locked ≤ C.bmax) (ha3 : a.per_block ≤ C.bmax)
    (hb1 : 1 ≤ b.locked) (hb2 : b.locked ≤ C.bmax) (hb3 : b.per_block ≤ C.bmax)
    (hea : a.ending_block C = some ea) (heb : b.ending_block C = some eb)
    (hna : now < ea) (hnb : now < eb) :
    merge_vesting_info C now a b = .ok (some
      ⟨satAdd C.bmax (a.locked_at C now) (b.locked_at C now),
       (if satAdd C.bmax (a.locked_at C now) (b.locked_at C now) <
            max ea eb - max (max now a.starting_block) b.starting_block then 1
        else satAdd C.bmax (a.locked_at C now) (b.locked_at C now) /
          (max ea eb - max (max now a.starting_block) b.starting_block)),
       max (max now a.starting_block) b.starting_block⟩) := by
  have hla : 1 ≤ a.locked_at C now :=
    locked_at_pos_of_active C a ea now ha1 ha2 hea hna
  have hlb : 1 ≤ b.locked_at C now :=
    locked_at_pos_of_active C b eb now hb1 hb2 heb hnb
  have hL : 1 ≤ satAdd C.bmax (a.locked_at C now) (b.locked_at C now) := by
    unfold satAdd
    omega
  have hda : a.starting_block + 1 ≤ ea := (ending_block_lower C a ea hB ha1 ha3 hea).1
  have hdb : b.starting_block + 1 ≤ eb := (ending_block_lower C b eb hB hb1 hb3 heb).1
  have hD0 : ¬(max ea eb - max (max now a.starting_block) b.starting_block = 0) := by
    omega
  unfold merge_vesting_info
  rw [hea, heb]
  dsimp only
  rw [if_neg (by omega), if_neg (by omega), if_neg (by omega), if_neg (by omega)]
  rw [if_neg hD0]
  unfold VestingInfo.correct
  dsimp only
  rw [min_one_div _ _ hL]

/-- C2 counterexample: for the degenerate schedule `{locked = 0,
per_block = 1, starting_block = 5}` both ending blocks (5) are strictly
after `now = 0`, yet merging it with itself yields no schedule at all
(`ok none`), not the `some` schedule the claim describes. -/
theorem claim2_counterexample :
    (⟨0, 1, 5⟩ : VestingInfo).ending_block Cx4 = some 5 ∧
    merge_vesting_info Cx4 0 ⟨0, 1, 5⟩ ⟨0, 1, 5⟩ = .ok none := by decide

theorem claim2_witness :
    ((⟨1280, 64, 10⟩ : VestingInfo).ending_block Cw4 = some 30 ∧ (10 : Nat) < 30) ∧
    merge_vesting_info Cw4 10 ⟨1280, 64, 10⟩ ⟨1280, 64, 10⟩ =
      .ok (some ⟨2560, 128, 10⟩) := by
  constructor
  · exact ⟨by decide, by decide⟩
  · exact (claim2_merge_both_active Cw4 10 ⟨1280, 64, 10⟩ ⟨1280, 64, 10⟩ 30 30
      (by decide) (by decide) (by decide) (by decide) (by decide) (by decide)
      (by decide) (by decide) (by decide) (by decide) (by decide)).trans
      (congrArg Except.ok (by decide))

end VestingPallet
